import Mathlib

/-!
Verification development for the yeelight-music-sync audio-reactive lighting
pipeline.  The rational-arithmetic parts of the code (the rhythm/mode analyzer
in internal/patterns and the LED controller in cmd/controller/main.go) are
embedded over the rationals so that concrete runs can be evaluated; the
spectral analyzer (internal/dsp/analyzer.go), which uses the FFT, the Hann
window and square roots, is embedded over the reals.  Go float64 arithmetic is
idealized as exact field arithmetic throughout.
-/

namespace Yms

/-- Go helper clampFloat (cmd/controller/main.go) and utils.Clamp at rational type. -/
def clampQ (v lo hi : ℚ) : ℚ := if v < lo then lo else if v > hi then hi else v

/-- Go helper clampInt (cmd/controller/main.go). -/
def clampZ (v lo hi : ℤ) : ℤ := if v < lo then lo else if v > hi then hi else v

/-- utils.Clamp (internal/utils/math.go) at real type. -/
noncomputable def clampR (v lo hi : ℝ) : ℝ := if v < lo then lo else if v > hi then hi else v

/-- spectralBalance (cmd/controller/main.go) and utils.SpectralBalance: the normalized
contribution of a within a+b, defaulting to 0.5 when the denominator is tiny. -/
def spectralBalanceQ (a b : ℚ) : ℚ :=
  if a + b ≤ 1e-9 then 1/2 else clampQ (a / (a + b)) 0 1

/-- utils.SpectralBalance at real type (internal/utils/math.go). -/
noncomputable def spectralBalanceR (a b : ℝ) : ℝ :=
  if a + b ≤ 1e-9 then 1/2 else clampR (a / (a + b)) 0 1

/-- Truncation toward zero, as in Go float-to-int conversion and math.Trunc. -/
def goTrunc (q : ℚ) : ℤ := if 0 ≤ q then ⌊q⌋ else ⌈q⌉

/-- Go math.Mod: truncated remainder, carrying the sign of the dividend. -/
def goMod (x y : ℚ) : ℚ := x - y * goTrunc (x / y)

/-- Go math.Round: round to nearest, halves away from zero. -/
def goRound (q : ℚ) : ℤ := if 0 ≤ q then ⌊q + 1/2⌋ else ⌈q - 1/2⌉

/-- Mathematical (floored) modulus on rationals, used to state circular-arithmetic facts. -/
def floorMod (x y : ℚ) : ℚ := x - y * ⌊x / y⌋

/-- Circular distance between two angles in degrees: length of the shortest arc on the
360-degree circle. -/
def circDist (x y : ℚ) : ℚ := min (floorMod (x - y) 360) (360 - floorMod (x - y) 360)

/-! ### internal/patterns: rhythm, beat and mode analyzer -/

/-- patterns.Mode: the high-level lighting strategy. -/
inductive Mode
  | energyPulse
  | spectrumFlow
deriving DecidableEq

/-- patterns.Options.  Durations are rationals in seconds (Go time.Duration values). -/
structure POptions where
  energyWindow : ℤ
  beatThreshold : ℚ
  minBeatInterval : ℚ
  maxBeatInterval : ℚ
  intensityAlpha : ℚ
  modeHold : ℚ
  beatWindow : ℚ
deriving DecidableEq

/-- The fields of dsp.Features that patterns.Analyzer.Process reads. -/
structure PFeatures where
  rms : ℚ
  centroidNorm : ℚ
deriving DecidableEq

/-- patterns.Output. -/
structure Output where
  beat : Bool
  beatStrength : ℚ
  energy : ℚ
  energyNorm : ℚ
  intensity : ℚ
  beatDensity : ℚ
  mode : Mode
deriving DecidableEq

/-- patterns.Analyzer mutable state.  Go's zero time.Time is modelled as none. -/
structure PState where
  opts : POptions
  energyHistory : List ℚ
  energySum : ℚ
  energyCount : ℕ
  energyIndex : ℕ
  lastBeat : Option ℚ
  beatTimes : List ℚ
  currentMode : Mode
  lastModeSwitch : Option ℚ
  intensity : ℚ
  noiseFloor : ℚ
  peakEnergy : ℚ

/-- Defaulting of unset options done by patterns.NewAnalyzer. -/
def defaultedOptions (o : POptions) : POptions where
  energyWindow := if o.energyWindow ≤ 0 then 48 else o.energyWindow
  beatThreshold := if o.beatThreshold ≤ 0 then 27/20 else o.beatThreshold
  minBeatInterval := if o.minBeatInterval ≤ 0 then 4/25 else o.minBeatInterval
  maxBeatInterval := if o.maxBeatInterval ≤ 0 then 6/5 else o.maxBeatInterval
  intensityAlpha := if o.intensityAlpha ≤ 0 then 9/50 else o.intensityAlpha
  modeHold := if o.modeHold ≤ 0 then 5/2 else o.modeHold
  beatWindow := if o.beatWindow ≤ 0 then 2 else o.beatWindow

/-- patterns.NewAnalyzer. -/
def newPAnalyzer (o : POptions) : PState :=
  let opts := defaultedOptions o
  { opts := opts
    energyHistory := List.replicate opts.energyWindow.toNat 0
    energySum := 0
    energyCount := 0
    energyIndex := 0
    lastBeat := none
    beatTimes := []
    currentMode := .energyPulse
    lastModeSwitch := none
    intensity := 0
    noiseFloor := 1/1000
    peakEnergy := 1/100 }

/-- patterns.ema: exponential moving average with degenerate-alpha shortcuts. -/
def ema (prev value alpha : ℚ) : ℚ :=
  if alpha ≤ 0 then prev else if 1 ≤ alpha then value else prev + alpha * (value - prev)

/-- The debounce test inside patterns.Analyzer.detectBeat: a non-zero last beat closer
than MinBeatInterval blocks the beat. -/
def beatBlocked (opts : POptions) (lastBeat : Option ℚ) (ts : ℚ) : Bool :=
  match lastBeat with
  | none => false
  | some lb => decide (ts - lb < opts.minBeatInterval)

/-- patterns.Analyzer.detectBeat. -/
def detectBeat (opts : POptions) (lastBeat : Option ℚ) (peakEnergy ts energy avgEnergy : ℚ) :
    Bool × ℚ :=
  if avgEnergy ≤ 1e-9 then (false, 0)
  else if beatBlocked opts lastBeat ts then (false, 0)
  else if energy ≤ opts.beatThreshold * avgEnergy then (false, 0)
  else (true, clampQ ((energy - opts.beatThreshold * avgEnergy) /
    (peakEnergy - opts.beatThreshold * avgEnergy + 1e-9)) 0 1)

/-- The mode selection of patterns.Analyzer.updateMode, given the (non-zero) time of the
last mode switch. -/
def updateModeSelect (opts : POptions) (mode : Mode)
    (lms ts energyNorm beatDensity centroidNorm : ℚ) : Mode :=
  match mode with
  | .energyPulse =>
    if ts - lms < opts.modeHold then .energyPulse
    else if energyNorm > 6/10 ∧ centroidNorm > 45/100 then .spectrumFlow
    else if beatDensity > 55/100 ∧ centroidNorm > 4/10 ∧ energyNorm > 5/10 then .spectrumFlow
    else .energyPulse
  | .spectrumFlow =>
    if ts - lms < opts.modeHold then .spectrumFlow
    else if energyNorm < 35/100 ∨ centroidNorm < 3/10 then .energyPulse
    else if beatDensity < 25/100 ∧ energyNorm < 45/100 then .energyPulse
    else .spectrumFlow

/-- patterns.Analyzer.Process: one step of the rhythm analyzer, returning the updated
state together with the Output record. -/
def processP (s : PState) (ts : ℚ) (f : PFeatures) : PState × Output :=
  let lms := match s.lastModeSwitch with | none => ts | some t => t
  let energy := if f.rms ≤ 0 then 1e-9 else f.rms
  let noiseFloor := ema s.noiseFloor energy (1/100)
  let peak0 :=
    if energy > s.peakEnergy then ema s.peakEnergy energy (34/100)
    else ema s.peakEnergy energy (1/50)
  let minPeak := noiseFloor * (3/2)
  let peakEnergy := if peak0 < minPeak then minPeak else peak0
  let energySum := s.energySum - s.energyHistory.getD s.energyIndex 0 + energy
  let energyHistory := s.energyHistory.set s.energyIndex energy
  let energyIndex := (s.energyIndex + 1) % energyHistory.length
  let energyCount := if s.energyCount < energyHistory.length then s.energyCount + 1
    else s.energyCount
  let avgEnergy := energySum / ((max energyCount 1 : ℕ) : ℚ)
  let energyNorm := clampQ ((energy - noiseFloor) / (peakEnergy - noiseFloor + 1e-9)) 0 1
  let bs := detectBeat s.opts s.lastBeat peakEnergy ts energy avgEnergy
  let lastBeat := if bs.1 then some ts else s.lastBeat
  let beatTimes0 := if bs.1 then s.beatTimes ++ [ts] else s.beatTimes
  let beatTimes := beatTimes0.filter (fun bt => decide (ts - s.opts.beatWindow < bt))
  let beatDensity := clampQ ((beatTimes.length : ℚ) / s.opts.beatWindow / 4) 0 1
  let intensityInstant :=
    clampQ (65/100 * energyNorm + 25/100 * beatDensity + 1/10 * f.centroidNorm) 0 1
  let intensity := ema s.intensity intensityInstant s.opts.intensityAlpha
  let newMode := updateModeSelect s.opts s.currentMode lms ts energyNorm beatDensity f.centroidNorm
  let lastModeSwitch := if newMode ≠ s.currentMode then some ts else some lms
  ({ s with
      noiseFloor := noiseFloor
      peakEnergy := peakEnergy
      energySum := energySum
      energyHistory := energyHistory
      energyIndex := energyIndex
      energyCount := energyCount
      lastBeat := lastBeat
      beatTimes := beatTimes
      intensity := intensity
      currentMode := newMode
      lastModeSwitch := lastModeSwitch },
   { beat := bs.1
     beatStrength := bs.2
     energy := energy
     energyNorm := energyNorm
     intensity := intensity
     beatDensity := beatDensity
     mode := newMode })

/-- Outputs produced by feeding a list of (timestamp, features) calls to the analyzer. -/
def runPOutputs : PState → List (ℚ × PFeatures) → List Output
  | _, [] => []
  | s, inp :: rest => (processP s inp.1 inp.2).2 :: runPOutputs (processP s inp.1 inp.2).1 rest

/-! ### cmd/controller: the LED controller / light mapper -/

/-- dsp.Smoother at rational type: a scalar exponential moving average whose first Step
seeds the value. -/
structure QSmoother where
  alpha : ℚ
  initialized : Bool
  value : ℚ

/-- dsp.NewSmoother. -/
def newSmoother (alpha : ℚ) : QSmoother := ⟨clampQ alpha 0 1, false, 0⟩

/-- dsp.Smoother.Step, returning the updated smoother and the smoothed value. -/
def QSmoother.step (s : QSmoother) (v : ℚ) : QSmoother × ℚ :=
  if s.initialized then
    let value := s.value + s.alpha * (v - s.value)
    ({ s with value := value }, value)
  else
    ({ s with initialized := true, value := v }, v)

/-- energyPulseHue (cmd/controller/main.go). -/
def energyPulseHue (bands : Fin 3 → ℚ) (centroid lowMidBalance beatPulse : ℚ) : ℚ :=
  let bass := bands 0
  let treble := bands 2
  let base := 40 + 180 * centroid - 100 * bass + 60 * treble
  let pulseShift := 20 * beatPulse * (1/2 - lowMidBalance)
  clampQ (base + pulseShift) 0 359

/-- energyPulseSaturation (cmd/controller/main.go). -/
def energyPulseSaturation (mid treble : ℚ) (st : Output) (beatPulse sparkle : ℚ) : ℚ :=
  clampQ (38 + 42 * mid + 25 * treble + 20 * beatPulse + 16 * st.beatDensity + 18 * sparkle)
    25 100

/-- energyPulseBrightness (cmd/controller/main.go). -/
def energyPulseBrightness (intensity beatPulse sparkle : ℚ) : ℚ :=
  let base := 28 + 62 * intensity
  let pulse := 32 * beatPulse
  let sparkleBoost := 26 * sparkle
  clampQ (base + pulse + sparkleBoost) 8 100

/-- spectrumFlowHue (cmd/controller/main.go). -/
def spectrumFlowHue (centroid rolloff midHiBalance : ℚ) : ℚ :=
  clampQ (210 * centroid + 40 * (rolloff - 1/2) + 90 * (midHiBalance - 1/2) + 40) 0 359

/-- spectrumFlowSaturation (cmd/controller/main.go). -/
def spectrumFlowSaturation (mid treble intensity : ℚ) : ℚ :=
  clampQ (42 + 50 * mid + 18 * treble + 12 * intensity) 28 98

/-- spectrumFlowBrightness (cmd/controller/main.go). -/
def spectrumFlowBrightness (high intensity beatPulse sparkle : ℚ) : ℚ :=
  clampQ (34 + 56 * intensity + 22 * high + 12 * beatPulse + 20 * sparkle) 10 100

/-- smoothHue (cmd/controller/main.go): circular interpolation along the shortest
angular path. -/
def smoothHue (current target alpha : ℚ) : ℚ :=
  let delta := goMod (target - current + 540) 360 - 180
  goMod (current + alpha * delta + 360) 360

/-- The fields of dsp.Features that ledController.apply reads. -/
structure MFeatures where
  bandNorm : Fin 3 → ℚ
  centroidNorm : ℚ
  rolloffNorm : ℚ

/-- The hue/saturation/brightness triple handed to MusicModeBulb.SetHSV. -/
structure Cmd where
  hue : ℤ
  sat : ℤ
  bright : ℤ
deriving DecidableEq

/-- ledController state (cmd/controller/main.go).  Timestamps are rational seconds
since the Unix epoch. -/
structure CState where
  hue : ℚ
  saturation : ℚ
  brightness : ℚ
  beatPulse : ℚ
  sparkleLevel : ℚ
  initialized : Bool
  lastCommand : ℚ
  minCommandSpacing : ℚ
  lastHue : ℤ
  lastSat : ℤ
  lastBrightness : ℤ
  satSmoother : QSmoother
  brightSmoother : QSmoother
  sparkleSmoother : QSmoother
  bandSmoothers : Fin 3 → QSmoother
  smoothedBands : Fin 3 → ℚ
  centroidSmoother : QSmoother
  rolloffSmoother : QSmoother
  centroidValue : ℚ
  rolloffValue : ℚ

/-- Seconds from Go's zero time.Time (January 1, year 1 UTC) to the Unix epoch, negated:
the Unix timestamp of the zero time. -/
def goZeroTime : ℚ := -62135596800

/-- newLEDController (cmd/controller/main.go): Go zero values everywhere except the
smoothing constants and the 25 ms minimum command spacing. -/
def newLEDController : CState where
  hue := 0
  saturation := 0
  brightness := 0
  beatPulse := 0
  sparkleLevel := 0
  initialized := false
  lastCommand := goZeroTime
  minCommandSpacing := 1/40
  lastHue := 0
  lastSat := 0
  lastBrightness := 0
  satSmoother := newSmoother (16/100)
  brightSmoother := newSmoother (22/100)
  sparkleSmoother := newSmoother (14/100)
  bandSmoothers := fun _ => newSmoother (14/100)
  smoothedBands := fun _ => 0
  centroidSmoother := newSmoother (12/100)
  rolloffSmoother := newSmoother (1/10)
  centroidValue := 0
  rolloffValue := 0

/-- The mode-dispatched color-target computation of ledController.apply (the switch on
state.Mode), over the already-smoothed inputs. -/
def colorTargets (bands : Fin 3 → ℚ) (centroidValue rolloffValue beatPulse sparkleLevel : ℚ)
    (st : Output) : ℚ × ℚ × ℚ :=
  let lowMidBalance := spectralBalanceQ (bands 0) (bands 1)
  let midHiBalance := spectralBalanceQ (bands 1) (bands 2)
  match st.mode with
  | .spectrumFlow =>
      (spectrumFlowHue centroidValue rolloffValue midHiBalance,
       spectrumFlowSaturation (bands 1) (bands 2) st.intensity,
       spectrumFlowBrightness (bands 2) st.intensity beatPulse sparkleLevel)
  | .energyPulse =>
      (energyPulseHue bands centroidValue lowMidBalance beatPulse,
       energyPulseSaturation (bands 1) (bands 2) st beatPulse sparkleLevel,
       energyPulseBrightness st.intensity beatPulse sparkleLevel)

/-- The state-updating (smoothing) part of ledController.apply, before quantization
and emission. -/
def applySmooth (c : CState) (f : MFeatures) (st : Output) : CState :=
  let beatPulse := if st.beat then clampQ (st.beatStrength * (6/5)) 0 1
    else c.beatPulse * (22/25)
  let sparkleStep := c.sparkleSmoother.step (f.bandNorm 2)
  let bandStep : Fin 3 → QSmoother × ℚ := fun i => (c.bandSmoothers i).step (f.bandNorm i)
  let centroidStep := c.centroidSmoother.step f.centroidNorm
  let rolloffStep := c.rolloffSmoother.step f.rolloffNorm
  let targets := colorTargets (fun i => (bandStep i).2) centroidStep.2 rolloffStep.2
    beatPulse sparkleStep.2 st
  let base := { c with
    beatPulse := beatPulse
    sparkleLevel := sparkleStep.2
    sparkleSmoother := sparkleStep.1
    bandSmoothers := fun i => (bandStep i).1
    smoothedBands := fun i => (bandStep i).2
    centroidSmoother := centroidStep.1
    centroidValue := centroidStep.2
    rolloffSmoother := rolloffStep.1
    rolloffValue := rolloffStep.2 }
  if c.initialized then
    let satStep := c.satSmoother.step targets.2.1
    let brightStep := c.brightSmoother.step targets.2.2
    { base with
      hue := smoothHue c.hue targets.1 (11/50)
      saturation := satStep.2
      satSmoother := satStep.1
      brightness := brightStep.2
      brightSmoother := brightStep.1 }
  else
    { base with
      hue := targets.1
      saturation := targets.2.1
      brightness := targets.2.2
      initialized := true }

/-- Wrapping of the rounded hue into 0..359: Go's `% 360` (truncated remainder) followed
by the negative fix-up. -/
def hueWrap (r : ℤ) : ℤ :=
  if r.tmod 360 < 0 then r.tmod 360 + 360 else r.tmod 360

/-- The output quantization of ledController.apply: rounded wrapped hue, clamped
saturation and brightness integers. -/
def quantize (c : CState) : ℤ × ℤ × ℤ :=
  (hueWrap (goRound c.hue), clampZ (goRound c.saturation) 0 100,
   clampZ (goRound c.brightness) 1 100)

/-- ledController.apply (cmd/controller/main.go): smoothing update, quantization, then
rate limiting and deduplication before emitting a command.  now is the wall-clock time
read by time.Since / time.Now. -/
def applyC (c : CState) (f : MFeatures) (st : Output) (now : ℚ) : CState × Option Cmd :=
  if now - c.lastCommand < c.minCommandSpacing then (applySmooth c f st, none)
  else if (quantize (applySmooth c f st)).1 = c.lastHue ∧
      (quantize (applySmooth c f st)).2.1 = c.lastSat ∧
      (quantize (applySmooth c f st)).2.2 = c.lastBrightness then (applySmooth c f st, none)
  else
    ({ applySmooth c f st with
        lastHue := (quantize (applySmooth c f st)).1
        lastSat := (quantize (applySmooth c f st)).2.1
        lastBrightness := (quantize (applySmooth c f st)).2.2
        lastCommand := now },
     some ⟨(quantize (applySmooth c f st)).1, (quantize (applySmooth c f st)).2.1,
       (quantize (applySmooth c f st)).2.2⟩)

/-! ### internal/dsp: the spectral analyzer, over the reals -/

/-- dsp.FrequencyBand: an inclusive frequency span in Hz. -/
structure FrequencyBand where
  low : ℝ
  high : ℝ

/-- dsp.DefaultBands: the low/mid/high groupings for music content. -/
noncomputable def defaultBands : Fin 3 → FrequencyBand :=
  ![⟨20, 250⟩, ⟨250, 2000⟩, ⟨2000, 8000⟩]

/-- dsp.Analyzer configuration.  The source names the rolloff fraction field
rolloffRatio; it is renamed here. -/
structure DAnalyzer where
  sampleRate : ℝ
  frameSize : ℕ
  bands : Fin 3 → FrequencyBand
  rolloffFraction : ℝ
  bandWidth : ℝ

/-- dsp.NewAnalyzer: all-zero bands fall back to the defaults; the rolloff fraction is
0.85 and the bin width is sampleRate/frameSize. -/
noncomputable def dspNewAnalyzer (sampleRate : ℝ) (frameSize : ℕ)
    (bands : Fin 3 → FrequencyBand) : DAnalyzer :=
  let bandCopy :=
    if (bands 0).low = 0 ∧ (bands 0).high = 0 ∧ (bands 1).low = 0 ∧ (bands 1).high = 0
        ∧ (bands 2).low = 0 ∧ (bands 2).high = 0 then
      defaultBands
    else bands
  { sampleRate := sampleRate
    frameSize := frameSize
    bands := bandCopy
    rolloffFraction := 85/100
    bandWidth := sampleRate / frameSize }

/-- dsp.HannWindow. -/
noncomputable def hannWindow (n : ℕ) : List ℝ :=
  if n = 0 then []
  else if n = 1 then [1]
  else (List.range n).map fun i => 1/2 - 1/2 * Real.cos (2 * Real.pi * i / ((n : ℝ) - 1))

/-- dsp.ApplyWindowInPlace: pointwise product of samples and window. -/
def applyWindow (samples window : List ℝ) : List ℝ := List.zipWith (· * ·) samples window

/-- One bin of the real-input discrete Fourier transform computed by fft.FFTReal
(external collaborator go-dsp). -/
noncomputable def dftBin (x : List ℝ) (k : ℕ) : ℂ :=
  ∑ j ∈ Finset.range x.length,
    ((x.getD j 0 : ℝ) : ℂ) * Complex.exp (-(2 * Real.pi * Complex.I * j * k) / x.length)

/-- The magnitudes of the first frameSize/2 + 1 spectrum bins (dsp.Analyzer.Process). -/
noncomputable def halfMags (frameSize : ℕ) (windowed : List ℝ) : List ℝ :=
  (List.range (frameSize / 2 + 1)).map fun k => Complex.abs (dftBin windowed k)

/-- Sum of squares of a list, as accumulated for the total spectral energy. -/
noncomputable def sumSq (l : List ℝ) : ℝ := (l.map fun m => m * m).sum

/-- dsp.RootMeanSquare. -/
noncomputable def rootMeanSquare (frame : List ℝ) : ℝ :=
  if frame.length = 0 then 0
  else Real.sqrt (sumSq frame / frame.length)

/-- The cumulative-energy walk of dsp.Analyzer.computeRolloff: the first bin whose
cumulative squared-magnitude energy reaches the target, or none if never reached. -/
noncomputable def rolloffWalk (bandWidth target : ℝ) : ℕ → ℝ → List ℝ → Option ℝ
  | _, _, [] => none
  | i, cumulative, mag :: rest =>
    if target ≤ cumulative + mag * mag then some ((i : ℝ) * bandWidth)
    else rolloffWalk bandWidth target (i + 1) (cumulative + mag * mag) rest

/-- dsp.Analyzer.computeRolloff: 0 on near-zero total energy, otherwise the walk with
Nyquist as the fall-through value. -/
noncomputable def computeRolloff (a : DAnalyzer) (totalEnergy : ℝ) (mags : List ℝ) : ℝ :=
  if totalEnergy ≤ 1e-9 then 0
  else (rolloffWalk a.bandWidth (totalEnergy * a.rolloffFraction) 0 0 mags).getD
    (a.sampleRate / 2)

/-- The per-band summation of dsp.Analyzer.computeBandEnergy: squared magnitudes over
bins floor(low/binWidth) .. ceil(high/binWidth), clamped to the valid bin range. -/
noncomputable def bandEnergyOf (a : DAnalyzer) (mags : List ℝ) (band : FrequencyBand) : ℝ :=
  let lower := max band.low 0
  let upper := max band.high lower
  let startB : ℤ := ⌊lower / a.bandWidth⌋
  let endB : ℤ := ⌈upper / a.bandWidth⌉
  let endC : ℤ := if (mags.length : ℤ) ≤ endB then (mags.length : ℤ) - 1 else endB
  let startC : ℤ := if startB < 0 then 0 else startB
  ∑ b ∈ Finset.Icc startC endC, (fun m => m * m) (mags.getD b.toNat 0)

/-- dsp.Analyzer.computeBandEnergy: raw band energies and their total-energy-normalized
clamped forms (zero when total energy is near zero). -/
noncomputable def computeBandEnergy (a : DAnalyzer) (totalEnergy : ℝ) (mags : List ℝ) :
    (Fin 3 → ℝ) × (Fin 3 → ℝ) :=
  let energies := fun i => bandEnergyOf a mags (a.bands i)
  let normalized :=
    if 1e-9 < totalEnergy then fun i => clampR (energies i / totalEnergy) 0 1
    else fun _ => 0
  (energies, normalized)

/-- dsp.Features, restricted to the fields the claims are about (timestamp,
zero-crossing rate, peak bin and frame duration are not read by any claim). -/
structure DFeatures where
  rms : ℝ
  spectralCentroid : ℝ
  spectralCentroidNorm : ℝ
  spectralRolloff : ℝ
  spectralRolloffNorm : ℝ
  bandEnergy : Fin 3 → ℝ
  bandEnergyNormalized : Fin 3 → ℝ
  totalEnergy : ℝ
  spectralBalanceLowMid : ℝ
  spectralBalanceMidHi : ℝ

/-- dsp.Analyzer.Process: window, FFT magnitudes, energies, centroid, rolloff, band
energies and balances. -/
noncomputable def dspProcess (a : DAnalyzer) (frame : List ℝ) : DFeatures :=
  let windowed := applyWindow frame (hannWindow a.frameSize)
  let mags := halfMags a.frameSize windowed
  let totalEnergy := sumSq mags
  let centroidNumerator :=
    ((List.range mags.length).map fun (i : ℕ) => ((i : ℝ) * a.bandWidth) * mags.getD i 0).sum
  let magnitudeSum := mags.sum
  let rms := rootMeanSquare frame
  let centroid := if 1e-9 < magnitudeSum then centroidNumerator / magnitudeSum else 0
  let normFactor := a.sampleRate / 2
  let centroidNorm := if 0 < normFactor then clampR (centroid / normFactor) 0 1 else 0
  let rolloff := computeRolloff a totalEnergy mags
  let rolloffNorm := if 0 < normFactor then clampR (rolloff / normFactor) 0 1 else 0
  let be := computeBandEnergy a totalEnergy mags
  { rms := rms
    spectralCentroid := centroid
    spectralCentroidNorm := centroidNorm
    spectralRolloff := rolloff
    spectralRolloffNorm := rolloffNorm
    bandEnergy := be.1
    bandEnergyNormalized := be.2
    totalEnergy := totalEnergy
    spectralBalanceLowMid := spectralBalanceR (be.2 0) (be.2 1)
    spectralBalanceMidHi := spectralBalanceR (be.2 1) (be.2 2) }

/-! ### Spec-side restatements of the color formulas (section 4.3 of the spec), for
comparison against the functions embedded from the source. -/

/-- Spec formula for the EnergyPulse hue. -/
def specEnergyPulseHue (centroid bass treble beatPulse lowMidBalance : ℚ) : ℚ :=
  clampQ (40 + 180 * centroid - 100 * bass + 60 * treble
    + 20 * beatPulse * (1/2 - lowMidBalance)) 0 359

/-- Spec formula for the EnergyPulse saturation. -/
def specEnergyPulseSat (mid treble beatPulse beatDensity sparkle : ℚ) : ℚ :=
  clampQ (38 + 42 * mid + 25 * treble + 20 * beatPulse + 16 * beatDensity + 18 * sparkle) 25 100

/-- Spec formula for the EnergyPulse brightness. -/
def specEnergyPulseBright (intensity beatPulse sparkle : ℚ) : ℚ :=
  clampQ (28 + 62 * intensity + 32 * beatPulse + 26 * sparkle) 8 100

/-- Spec formula for the SpectrumFlow hue. -/
def specSpectrumFlowHue (centroid rolloff midHiBalance : ℚ) : ℚ :=
  clampQ (210 * centroid + 40 * (rolloff - 1/2) + 90 * (midHiBalance - 1/2) + 40) 0 359

/-- Spec formula for the SpectrumFlow saturation. -/
def specSpectrumFlowSat (mid treble intensity : ℚ) : ℚ :=
  clampQ (42 + 50 * mid + 18 * treble + 12 * intensity) 28 98

/-- Spec formula for the SpectrumFlow brightness. -/
def specSpectrumFlowBright (intensity treble beatPulse sparkle : ℚ) : ℚ :=
  clampQ (34 + 56 * intensity + 22 * treble + 12 * beatPulse + 20 * sparkle) 10 100

/-! ### Concrete instances used to exercise the theorems on closed inputs -/

/-- A quiet mapper-features record. -/
def f0 : MFeatures := ⟨fun _ => 0, 0, 0⟩

/-- A quiet analyzer output in the initial EnergyPulse mode. -/
def st0 : Output := ⟨false, 0, 0, 0, 0, 0, .energyPulse⟩

/-- A controller whose last-sent triple matches the quantization of a quiet first frame. -/
def c4w : CState := { newLEDController with lastHue := 40, lastSat := 38, lastBrightness := 28 }

/-- Silent-frame features for the rhythm analyzer. -/
def pSilent : PFeatures := ⟨0, 0⟩

/-- Loud, bright features for the rhythm analyzer. -/
def pLoud : PFeatures := ⟨1, 9/10⟩

/-- Loud, dark features for the rhythm analyzer. -/
def pLoudLow : PFeatures := ⟨1, 0⟩

/-- A rhythm analyzer built with all-zero (hence all-defaulted) options. -/
def pInit : PState := newPAnalyzer ⟨0, 0, 0, 0, 0, 0, 0⟩

/-- A small spectral analyzer: 8 Hz sample rate, 4-sample frames. -/
noncomputable def dA4 : DAnalyzer :=
  { sampleRate := 8, frameSize := 4, bands := defaultBands, rolloffFraction := 85/100,
    bandWidth := 2 }

/-- A realistic spectral analyzer: 44.1 kHz sample rate, 1024-sample frames. -/
noncomputable def dA44 : DAnalyzer :=
  { sampleRate := 44100, frameSize := 1024, bands := defaultBands, rolloffFraction := 85/100,
    bandWidth := 44100/1024 }

/-! ### Basic lemmas about the numeric helpers -/

theorem clampQ_mem (v lo hi : ℚ) (h : lo ≤ hi) : lo ≤ clampQ v lo hi ∧ clampQ v lo hi ≤ hi := by
  unfold clampQ
  split_ifs <;> constructor <;> linarith

theorem clampR_mem (v lo hi : ℝ) (h : lo ≤ hi) : lo ≤ clampR v lo hi ∧ clampR v lo hi ≤ hi := by
  unfold clampR
  split_ifs <;> constructor <;> linarith

theorem clampZ_mem (v lo hi : ℤ) (h : lo ≤ hi) : lo ≤ clampZ v lo hi ∧ clampZ v lo hi ≤ hi := by
  unfold clampZ
  split_ifs <;> omega

theorem spectralBalanceQ_mem (a b : ℚ) :
    0 ≤ spectralBalanceQ a b ∧ spectralBalanceQ a b ≤ 1 := by
  unfold spectralBalanceQ
  split_ifs
  · norm_num
  · exact clampQ_mem _ 0 1 (by norm_num)

theorem spectralBalanceR_mem (a b : ℝ) :
    0 ≤ spectralBalanceR a b ∧ spectralBalanceR a b ≤ 1 := by
  unfold spectralBalanceR
  split_ifs
  · norm_num
  · exact clampR_mem _ 0 1 (by norm_num)

theorem clampQ_congr (lo hi : ℚ) {x y : ℚ} (h : x = y) : clampQ x lo hi = clampQ y lo hi := by
  rw [h]

theorem hueWrap_mem (r : ℤ) : 0 ≤ hueWrap r ∧ hueWrap r ≤ 359 := by
  have hub : r.tmod 360 < 360 := Int.tmod_lt_of_pos r (by norm_num)
  have hlb : -360 < r.tmod 360 := by
    cases r with
    | ofNat n =>
      have h0 : (0 : ℤ) ≤ Int.ofNat n := Int.ofNat_nonneg n
      have := Int.tmod_nonneg (360 : ℤ) h0
      omega
    | negSucc n =>
      have he : Int.tmod (Int.negSucc n) 360 = -(((n + 1) % 360 : ℕ) : ℤ) := rfl
      have hm : (n + 1) % 360 < 360 := Nat.mod_lt _ (by norm_num)
      omega
  unfold hueWrap
  split_ifs <;> omega

/-! ### Light mapper lemmas and claims -/

theorem applySmooth_lastHue (c : CState) (f : MFeatures) (st : Output) :
    (applySmooth c f st).lastHue = c.lastHue := by
  unfold applySmooth
  split <;> split <;> rfl

theorem applySmooth_lastSat (c : CState) (f : MFeatures) (st : Output) :
    (applySmooth c f st).lastSat = c.lastSat := by
  unfold applySmooth
  split <;> split <;> rfl

theorem applySmooth_lastBrightness (c : CState) (f : MFeatures) (st : Output) :
    (applySmooth c f st).lastBrightness = c.lastBrightness := by
  unfold applySmooth
  split <;> split <;> rfl

theorem applySmooth_lastCommand (c : CState) (f : MFeatures) (st : Output) :
    (applySmooth c f st).lastCommand = c.lastCommand := by
  unfold applySmooth
  split <;> split <;> rfl

/-- Claim C1: for every call of the light mapper, the color target is computed exactly
by the mode's stated formulas over the smoothed inputs: in EnergyPulse mode the
hue/sat/bright formulas with the 40, 180, minus 100, 60, 20 hue terms, 38/42/25/20/16/18
saturation terms and 28/62/32/26 brightness terms and their clamp ranges; in
SpectrumFlow mode the 210/40/90/40 hue terms, 42/50/18/12 saturation terms and
34/56/22/12/20 brightness terms and their clamp ranges. -/
theorem colorTargets_match_spec (bands : Fin 3 → ℚ)
    (centroidValue rolloffValue beatPulse sparkleLevel : ℚ) (st : Output) :
    colorTargets bands centroidValue rolloffValue beatPulse sparkleLevel st =
      (let lowMidBalance := spectralBalanceQ (bands 0) (bands 1)
       let midHiBalance := spectralBalanceQ (bands 1) (bands 2)
       match st.mode with
       | .spectrumFlow =>
           (specSpectrumFlowHue centroidValue rolloffValue midHiBalance,
            specSpectrumFlowSat (bands 1) (bands 2) st.intensity,
            specSpectrumFlowBright st.intensity (bands 2) beatPulse sparkleLevel)
       | .energyPulse =>
           (specEnergyPulseHue centroidValue (bands 0) (bands 2) beatPulse lowMidBalance,
            specEnergyPulseSat (bands 1) (bands 2) beatPulse st.beatDensity sparkleLevel,
            specEnergyPulseBright st.intensity beatPulse sparkleLevel)) := by
  obtain ⟨beat, beatStrength, energy, energyNorm, intensity, beatDensity, mode⟩ := st
  cases mode <;>
    simp only [colorTargets, energyPulseHue, energyPulseSaturation, energyPulseBrightness,
      spectrumFlowHue, spectrumFlowSaturation, spectrumFlowBrightness, specEnergyPulseHue,
      specEnergyPulseSat, specEnergyPulseBright, specSpectrumFlowHue, specSpectrumFlowSat,
      specSpectrumFlowBright, Prod.mk.injEq]

/-- Claim C4: ledController.apply emits a command to the bulb if and only if the time
elapsed since the last emitted command is at least the minimum command spacing and the
quantized hue/sat/bright triple differs from the last emitted triple; when either
condition fails no command is sent and the last-sent triple and last-command time are
unchanged. -/
theorem applyC_emits_iff (c : CState) (f : MFeatures) (st : Output) (now : ℚ) :
    ((applyC c f st now).2.isSome = true ↔
      (c.minCommandSpacing ≤ now - c.lastCommand ∧
        quantize (applySmooth c f st) ≠ (c.lastHue, c.lastSat, c.lastBrightness))) ∧
    ((applyC c f st now).2 = none →
      (applyC c f st now).1.lastHue = c.lastHue ∧
      (applyC c f st now).1.lastSat = c.lastSat ∧
      (applyC c f st now).1.lastBrightness = c.lastBrightness ∧
      (applyC c f st now).1.lastCommand = c.lastCommand) := by
  have hq : ∀ x y z : ℤ, quantize (applySmooth c f st) = (x, y, z) ↔
      ((quantize (applySmooth c f st)).1 = x ∧ (quantize (applySmooth c f st)).2.1 = y ∧
        (quantize (applySmooth c f st)).2.2 = z) := by
    intro x y z
    constructor
    · intro h
      rw [h]
      exact ⟨rfl, rfl, rfl⟩
    · rintro ⟨h1, h2, h3⟩
      exact Prod.ext h1 (Prod.ext h2 h3)
  unfold applyC
  split_ifs with h1 h2
  · refine ⟨?_, ?_⟩
    · simp only [Option.isSome_none, Bool.false_eq_true, false_iff, not_and]
      intro hle
      exact absurd h1 (not_lt.mpr hle)
    · intro _
      exact ⟨applySmooth_lastHue c f st, applySmooth_lastSat c f st,
        applySmooth_lastBrightness c f st, applySmooth_lastCommand c f st⟩
  · refine ⟨?_, ?_⟩
    · simp only [Option.isSome_none, Bool.false_eq_true, false_iff, not_and]
      intro _ hne
      exact hne ((hq _ _ _).mpr h2)
    · intro _
      exact ⟨applySmooth_lastHue c f st, applySmooth_lastSat c f st,
        applySmooth_lastBrightness c f st, applySmooth_lastCommand c f st⟩
  · refine ⟨?_, ?_⟩
    · simp only [Option.isSome_some, true_iff]
      refine ⟨not_lt.mp h1, fun hcon => h2 ((hq _ _ _).mp hcon)⟩
    · intro hnone
      exact absurd hnone (by simp)

/-- Claim C4 witness: on a controller whose last-sent triple already equals the
quantization of a quiet frame, no command is emitted and the last-sent data is
unchanged. -/
theorem applyC_emits_iff_witness :
    (applyC c4w f0 st0 1).2 = none ∧
      ((applyC c4w f0 st0 1).1.lastHue = c4w.lastHue ∧
       (applyC c4w f0 st0 1).1.lastSat = c4w.lastSat ∧
       (applyC c4w f0 st0 1).1.lastBrightness = c4w.lastBrightness ∧
       (applyC c4w f0 st0 1).1.lastCommand = c4w.lastCommand) :=
  ⟨by with_unfolding_all decide, (applyC_emits_iff c4w f0 st0 1).2 (by with_unfolding_all decide)⟩

/-- Claim C7: every command emitted to the bulb carries an integer hue in 0..359, an
integer saturation in 0..100 and an integer brightness in 1..100, so brightness 0 is
never sent and the light is never commanded fully dark through this channel. -/
theorem emitted_command_in_range (c : CState) (f : MFeatures) (st : Output) (now : ℚ)
    (cmd : Cmd) (h : (applyC c f st now).2 = some cmd) :
    0 ≤ cmd.hue ∧ cmd.hue ≤ 359 ∧ 0 ≤ cmd.sat ∧ cmd.sat ≤ 100 ∧
      1 ≤ cmd.bright ∧ cmd.bright ≤ 100 := by
  unfold applyC at h
  split_ifs at h
  all_goals
    have hc : (⟨(quantize (applySmooth c f st)).1, (quantize (applySmooth c f st)).2.1,
        (quantize (applySmooth c f st)).2.2⟩ : Cmd) = cmd := Option.some.inj h
  all_goals rw [← hc]
  all_goals
    exact ⟨(hueWrap_mem _).1, (hueWrap_mem _).2, (clampZ_mem _ 0 100 (by norm_num)).1,
      (clampZ_mem _ 0 100 (by norm_num)).2, (clampZ_mem _ 1 100 (by norm_num)).1,
      (clampZ_mem _ 1 100 (by norm_num)).2⟩

/-- Claim C7 witness: the first quiet frame emits the command (40, 38, 28), which is
inside all the documented ranges. -/
theorem emitted_command_in_range_witness :
    (applyC newLEDController f0 st0 1).2 = some ⟨40, 38, 28⟩ ∧
      (0 ≤ (40 : ℤ) ∧ (40 : ℤ) ≤ 359 ∧ 0 ≤ (38 : ℤ) ∧ (38 : ℤ) ≤ 100 ∧
        1 ≤ (28 : ℤ) ∧ (28 : ℤ) ≤ 100) :=
  ⟨by with_unfolding_all decide,
   emitted_command_in_range newLEDController f0 st0 1 ⟨40, 38, 28⟩ (by with_unfolding_all decide)⟩

/-- Claim C10: on the very first apply call of a freshly constructed LED controller a
command is always emitted regardless of input: the zero-time last-command passes the
spacing check for any wall-clock time at or after the epoch, and the quantized
brightness is at least 1 while the initial last-sent triple is (0, 0, 0). -/
theorem first_apply_emits (f : MFeatures) (st : Output) (now : ℚ) (h : 0 ≤ now) :
    ((applyC newLEDController f st now).2).isSome = true := by
  have hlc : newLEDController.lastCommand = goZeroTime := rfl
  have hsp : newLEDController.minCommandSpacing = 1/40 := rfl
  have h1 : ¬(now - newLEDController.lastCommand < newLEDController.minCommandSpacing) := by
    rw [hlc, hsp, goZeroTime]
    intro hlt
    linarith
  have hbr : 1 ≤ (quantize (applySmooth newLEDController f st)).2.2 :=
    (clampZ_mem _ 1 100 (by norm_num)).1
  have h2 : ¬((quantize (applySmooth newLEDController f st)).1 = newLEDController.lastHue ∧
      (quantize (applySmooth newLEDController f st)).2.1 = newLEDController.lastSat ∧
      (quantize (applySmooth newLEDController f st)).2.2 = newLEDController.lastBrightness) := by
    rintro ⟨-, -, h3⟩
    have h0 : newLEDController.lastBrightness = 0 := rfl
    omega
  unfold applyC
  rw [if_neg h1, if_neg h2]
  rfl

/-- Claim C10 witness: at wall-clock time 1 the fresh controller emits on its first
apply call. -/
theorem first_apply_emits_witness :
    (0 : ℚ) ≤ 1 ∧ ((applyC newLEDController f0 st0 1).2).isSome = true :=
  ⟨by norm_num, first_apply_emits f0 st0 1 (by norm_num)⟩

/-! ### Circular hue smoothing (claim C5) -/

theorem floorMod_mem (x m : ℚ) (hm : 0 < m) : 0 ≤ floorMod x m ∧ floorMod x m < m := by
  unfold floorMod
  have h1 : ((⌊x / m⌋ : ℤ) : ℚ) ≤ x / m := Int.floor_le _
  have h2 : x / m < ((⌊x / m⌋ : ℤ) : ℚ) + 1 := Int.lt_floor_add_one _
  have h3 : ((⌊x / m⌋ : ℤ) : ℚ) * m ≤ x / m * m := mul_le_mul_of_nonneg_right h1 hm.le
  have h4 : x / m * m < (((⌊x / m⌋ : ℤ) : ℚ) + 1) * m := mul_lt_mul_of_pos_right h2 hm
  have h5 : x / m * m = x := div_mul_cancel₀ x (ne_of_gt hm)
  rw [h5] at h3 h4
  constructor <;> nlinarith [h3, h4]

theorem floorMod_add_mul_int (x m : ℚ) (k : ℤ) (hm : m ≠ 0) :
    floorMod (x + m * k) m = floorMod x m := by
  unfold floorMod
  have h1 : (x + m * k) / m = x / m + k := by
    rw [add_div, mul_div_cancel_left₀ _ hm]
  rw [h1, Int.floor_add_int]
  push_cast
  ring

theorem floorMod_eq_self (x m : ℚ) (h0 : 0 ≤ x) (h1 : x < m) : floorMod x m = x := by
  have hm : 0 < m := lt_of_le_of_lt h0 h1
  unfold floorMod
  have hz : ⌊x / m⌋ = 0 := by
    rw [Int.floor_eq_zero_iff]
    exact ⟨div_nonneg h0 hm.le, (div_lt_one hm).mpr h1⟩
  rw [hz]
  push_cast
  ring

theorem circDist_of_rep (x y e : ℚ) (k : ℤ) (hrep : x - y = e + 360 * k) (hb : |e| ≤ 180) :
    circDist x y = |e| := by
  have he1 : -180 ≤ e := (abs_le.mp hb).1
  have he2 : e ≤ 180 := (abs_le.mp hb).2
  have hfm : floorMod (x - y) 360 = floorMod e 360 := by
    rw [hrep]
    exact floorMod_add_mul_int e 360 k (by norm_num)
  rcases le_or_lt 0 e with he | he
  · have hself : floorMod e 360 = e := floorMod_eq_self e 360 he (by linarith)
    unfold circDist
    rw [hfm, hself, abs_of_nonneg he]
    exact min_eq_left (by linarith)
  · have h360 : floorMod e 360 = e + 360 := by
      have hsh : floorMod (e + 360 * ((1 : ℤ) : ℚ)) 360 = floorMod e 360 :=
        floorMod_add_mul_int e 360 1 (by norm_num)
      have he360 : floorMod (e + 360) 360 = e + 360 :=
        floorMod_eq_self (e + 360) 360 (by linarith) (by linarith)
      calc floorMod e 360 = floorMod (e + 360 * ((1 : ℤ) : ℚ)) 360 := hsh.symm
        _ = floorMod (e + 360) 360 := by norm_num
        _ = e + 360 := he360
    unfold circDist
    rw [hfm, h360, abs_of_neg he]
    have hr : 360 - (e + 360) = -e := by ring
    rw [hr]
    exact min_eq_right (by linarith)

theorem goMod_eq_floorMod (x m : ℚ) (hx : 0 ≤ x) (hm : 0 < m) : goMod x m = floorMod x m := by
  unfold goMod floorMod goTrunc
  rw [if_pos (div_nonneg hx hm.le)]

/-- Claim C5: for every current hue in the interval from 0 inclusive to 360 exclusive and
every target hue in the same interval, hue smoothing computes the shortest-path delta
(((target minus current) plus 540) mod 360) minus 180 and returns (current plus
alpha times delta plus 360) mod 360, and the circular distance moved never exceeds alpha
times the shortest angular distance between current and target, including across the
wrap at 359 degrees to 0 degrees. -/
theorem smoothHue_shortest_path (current target alpha : ℚ)
    (hc0 : 0 ≤ current) (hc1 : current < 360) (ht0 : 0 ≤ target) (ht1 : target < 360)
    (ha0 : 0 ≤ alpha) (ha1 : alpha ≤ 1) :
    smoothHue current target alpha =
      floorMod (current + alpha * (floorMod (target - current + 540) 360 - 180) + 360) 360 ∧
    circDist (smoothHue current target alpha) current ≤ alpha * circDist target current := by
  have h540 : 0 ≤ target - current + 540 := by linarith
  have hg1 : goMod (target - current + 540) 360 = floorMod (target - current + 540) 360 :=
    goMod_eq_floorMod _ _ h540 (by norm_num)
  have hb1 := floorMod_mem (target - current + 540) 360 (by norm_num)
  set fm1 := floorMod (target - current + 540) 360 with hfm1
  have hdlb : -180 ≤ fm1 - 180 := by linarith [hb1.1]
  have hdub : fm1 - 180 < 180 := by linarith [hb1.2]
  have habs : |alpha * (fm1 - 180)| ≤ 180 := by
    rw [abs_mul, abs_of_nonneg ha0]
    have hd : |fm1 - 180| ≤ 180 := abs_le.mpr ⟨hdlb, hdub.le⟩
    calc alpha * |fm1 - 180| ≤ 1 * 180 := mul_le_mul ha1 hd (abs_nonneg _) (by norm_num)
      _ = 180 := by norm_num
  have hd2 := abs_le.mp habs
  have hpos2 : 0 ≤ current + alpha * (fm1 - 180) + 360 := by linarith [hd2.1]
  have hsm : smoothHue current target alpha =
      floorMod (current + alpha * (fm1 - 180) + 360) 360 := by
    unfold smoothHue
    rw [hg1]
    exact goMod_eq_floorMod _ _ hpos2 (by norm_num)
  refine ⟨hsm, ?_⟩
  have hunf : fm1 = target - current + 540
      - 360 * ((⌊(target - current + 540) / 360⌋ : ℤ) : ℚ) := by
    rw [hfm1]
    unfold floorMod
    ring
  have hrep1 : target - current =
      (fm1 - 180) + 360 * ((⌊(target - current + 540) / 360⌋ - 1 : ℤ) : ℚ) := by
    push_cast
    linarith [hunf]
  have hcd1 : circDist target current = |fm1 - 180| :=
    circDist_of_rep target current (fm1 - 180) _ hrep1 (abs_le.mpr ⟨hdlb, hdub.le⟩)
  have hrep2 : smoothHue current target alpha - current =
      alpha * (fm1 - 180)
        + 360 * ((1 - ⌊(current + alpha * (fm1 - 180) + 360) / 360⌋ : ℤ) : ℚ) := by
    rw [hsm]
    unfold floorMod
    push_cast
    ring
  have hcd2 : circDist (smoothHue current target alpha) current = |alpha * (fm1 - 180)| :=
    circDist_of_rep _ _ _ _ hrep2 habs
  rw [hcd1, hcd2, abs_mul, abs_of_nonneg ha0]

/-- Claim C5 witness: current 350 and target 10 with alpha 0.22 move through the 360/0
wrap, covering 22 percent of the 20-degree shortest arc. -/
theorem smoothHue_shortest_path_witness :
    ((0 : ℚ) ≤ 350 ∧ (350 : ℚ) < 360 ∧ (0 : ℚ) ≤ 10 ∧ (10 : ℚ) < 360 ∧
      (0 : ℚ) ≤ 11/50 ∧ (11/50 : ℚ) ≤ 1) ∧
    (smoothHue 350 10 (11/50) =
        floorMod (350 + 11/50 * (floorMod (10 - 350 + 540) 360 - 180) + 360) 360 ∧
      circDist (smoothHue 350 10 (11/50)) 350 ≤ 11/50 * circDist 10 350) :=
  ⟨by norm_num,
   smoothHue_shortest_path 350 10 (11/50) (by norm_num) (by norm_num) (by norm_num)
     (by norm_num) (by norm_num) (by norm_num)⟩

/-! ### Rhythm analyzer lemmas and temporal claims (C3, C6) -/

theorem processP_opts (s : PState) (ts : ℚ) (f : PFeatures) :
    (processP s ts f).1.opts = s.opts := rfl

theorem updateModeSelect_hold (opts : POptions) (mode : Mode)
    (lms ts energyNorm beatDensity centroidNorm : ℚ) (h : ts - lms < opts.modeHold) :
    updateModeSelect opts mode lms ts energyNorm beatDensity centroidNorm = mode := by
  cases mode <;> simp [updateModeSelect, h]

theorem processP_no_switch (s : PState) (ts : ℚ) (f : PFeatures) (t : ℚ)
    (h : s.lastModeSwitch = some t) (hts : ts - t < s.opts.modeHold) :
    (processP s ts f).1.currentMode = s.currentMode ∧
    (processP s ts f).1.lastModeSwitch = some t ∧
    (processP s ts f).2.mode = s.currentMode := by
  simp only [processP, h]
  rw [updateModeSelect_hold _ _ _ _ _ _ _ hts]
  simp

theorem processP_switch_sets (s : PState) (ts : ℚ) (f : PFeatures) :
    (processP s ts f).1.currentMode ≠ s.currentMode →
    (processP s ts f).1.lastModeSwitch = some ts := by
  simp only [processP]
  intro h
  rw [if_pos h]

theorem runPOutputs_mode_const (t : ℚ) (m : Mode) (inputs : List (ℚ × PFeatures)) :
    ∀ s : PState, s.currentMode = m → s.lastModeSwitch = some t →
      (∀ j ∈ inputs, j.1 < t + s.opts.modeHold) →
      ∀ o ∈ runPOutputs s inputs, o.mode = m := by
  induction inputs with
  | nil =>
    intro s _ _ _ o ho
    simp [runPOutputs] at ho
  | cons inp rest ih =>
    intro s hmode hlms hwin o ho
    have hts : inp.1 - t < s.opts.modeHold := by
      have hj := hwin inp (List.mem_cons_self _ _)
      linarith
    obtain ⟨hcm, hls, hom⟩ := processP_no_switch s inp.1 inp.2 t hlms hts
    simp only [runPOutputs] at ho
    rcases List.mem_cons.mp ho with rfl | hrest
    · rw [hom, hmode]
    · refine ih (processP s inp.1 inp.2).1 (by rw [hcm, hmode]) hls ?_ o hrest
      intro j hj
      rw [processP_opts]
      exact hwin j (List.mem_cons_of_mem _ hj)

/-- Claim C3: for every sequence of calls to the rhythm analyzer with nondecreasing
timestamps, no two mode switches occur within ModeHold of each other: after a switch at
time t, the current mode stays unchanged for every subsequent call whose timestamp is
earlier than t plus ModeHold. -/
theorem mode_switch_hysteresis (s : PState) (inp : ℚ × PFeatures)
    (rest : List (ℚ × PFeatures))
    (hmono : List.Pairwise (· ≤ ·) (inp.1 :: rest.map Prod.fst))
    (hswitch : (processP s inp.1 inp.2).1.currentMode ≠ s.currentMode)
    (hwin : ∀ j ∈ rest, j.1 < inp.1 + s.opts.modeHold) :
    ∀ o ∈ runPOutputs (processP s inp.1 inp.2).1 rest,
      o.mode = (processP s inp.1 inp.2).1.currentMode := by
  have hls : (processP s inp.1 inp.2).1.lastModeSwitch = some inp.1 :=
    processP_switch_sets s inp.1 inp.2 hswitch
  refine runPOutputs_mode_const inp.1 _ rest (processP s inp.1 inp.2).1 rfl hls ?_
  intro j hj
  rw [processP_opts]
  exact hwin j hj

/-- Claim C3 witness: silence at time 0 then a loud bright frame at time 3 switches the
mode to SpectrumFlow; the call at time 4 (within the 2.5 second hold) leaves it
unchanged. -/
theorem mode_switch_hysteresis_witness :
    ((processP (processP pInit 0 pSilent).1 3 pLoud).1.currentMode ≠
        (processP pInit 0 pSilent).1.currentMode) ∧
    (∀ o ∈ runPOutputs (processP (processP pInit 0 pSilent).1 3 pLoud).1 [((4 : ℚ), pLoud)],
      o.mode = (processP (processP pInit 0 pSilent).1 3 pLoud).1.currentMode) :=
  ⟨by with_unfolding_all decide,
   mode_switch_hysteresis (processP pInit 0 pSilent).1 (3, pLoud) [((4 : ℚ), pLoud)]
     (by with_unfolding_all decide) (by with_unfolding_all decide)
     (by with_unfolding_all decide)⟩

theorem detectBeat_blocked (opts : POptions) (lastBeat : Option ℚ)
    (peakEnergy ts energy avgEnergy t : ℚ) (h : lastBeat = some t)
    (hts : ts - t < opts.minBeatInterval) :
    detectBeat opts lastBeat peakEnergy ts energy avgEnergy = (false, 0) := by
  unfold detectBeat beatBlocked
  rw [h]
  simp [hts]

theorem processP_no_beat (s : PState) (ts : ℚ) (f : PFeatures) (t : ℚ)
    (h : s.lastBeat = some t) (hts : ts - t < s.opts.minBeatInterval) :
    (processP s ts f).2.beat = false ∧ (processP s ts f).1.lastBeat = some t := by
  simp only [processP]
  rw [detectBeat_blocked s.opts s.lastBeat _ ts _ _ t h hts]
  simp [h]

theorem processP_beat_sets (s : PState) (ts : ℚ) (f : PFeatures) :
    (processP s ts f).2.beat = true → (processP s ts f).1.lastBeat = some ts := by
  simp only [processP]
  intro h
  rw [if_pos h]

theorem runPOutputs_no_beat (t : ℚ) (inputs : List (ℚ × PFeatures)) :
    ∀ s : PState, s.lastBeat = some t →
      (∀ j ∈ inputs, j.1 < t + s.opts.minBeatInterval) →
      ∀ o ∈ runPOutputs s inputs, o.beat = false := by
  induction inputs with
  | nil =>
    intro s _ _ o ho
    simp [runPOutputs] at ho
  | cons inp rest ih =>
    intro s hlb hwin o ho
    have hts : inp.1 - t < s.opts.minBeatInterval := by
      have hj := hwin inp (List.mem_cons_self _ _)
      linarith
    obtain ⟨hnb, hls⟩ := processP_no_beat s inp.1 inp.2 t hlb hts
    simp only [runPOutputs] at ho
    rcases List.mem_cons.mp ho with rfl | hrest
    · exact hnb
    · refine ih (processP s inp.1 inp.2).1 hls ?_ o hrest
      intro j hj
      rw [processP_opts]
      exact hwin j (List.mem_cons_of_mem _ hj)

/-- Claim C6: for every sequence of calls to the rhythm analyzer with nondecreasing
timestamps, two energy spikes separated by less than MinBeatInterval yield at most one
beat: after a beat fires at time t, every subsequent call whose timestamp is earlier
than t plus MinBeatInterval reports no beat. -/
theorem beat_debounce (s : PState) (inp : ℚ × PFeatures) (rest : List (ℚ × PFeatures))
    (hmono : List.Pairwise (· ≤ ·) (inp.1 :: rest.map Prod.fst))
    (hbeat : (processP s inp.1 inp.2).2.beat = true)
    (hwin : ∀ j ∈ rest, j.1 < inp.1 + s.opts.minBeatInterval) :
    ∀ o ∈ runPOutputs (processP s inp.1 inp.2).1 rest, o.beat = false := by
  have hlb : (processP s inp.1 inp.2).1.lastBeat = some inp.1 :=
    processP_beat_sets s inp.1 inp.2 hbeat
  refine runPOutputs_no_beat inp.1 rest (processP s inp.1 inp.2).1 hlb ?_
  intro j hj
  rw [processP_opts]
  exact hwin j hj

/-- Claim C6 witness: silence at time 0, a spike at time 1 fires a beat, and the spike
at time 1.1 (within the 160 ms debounce) does not. -/
theorem beat_debounce_witness :
    ((processP (processP pInit 0 pSilent).1 1 pLoudLow).2.beat = true) ∧
    (∀ o ∈ runPOutputs (processP (processP pInit 0 pSilent).1 1 pLoudLow).1
        [((11/10 : ℚ), pLoudLow)], o.beat = false) :=
  ⟨by with_unfolding_all decide,
   beat_debounce (processP pInit 0 pSilent).1 (1, pLoudLow) [((11/10 : ℚ), pLoudLow)]
     (by with_unfolding_all decide) (by with_unfolding_all decide)
     (by with_unfolding_all decide)⟩

/-! ### Normalized quantities stay in the unit interval (claim C2) -/

theorem computeBandEnergy_norm_mem (a : DAnalyzer) (te : ℝ) (mags : List ℝ) (i : Fin 3) :
    0 ≤ (computeBandEnergy a te mags).2 i ∧ (computeBandEnergy a te mags).2 i ≤ 1 := by
  simp only [computeBandEnergy]
  split_ifs with h
  · exact clampR_mem _ 0 1 (by norm_num)
  · norm_num

theorem dspFeatures_norm_mem (a : DAnalyzer) (frame : List ℝ)
    (hlen : frame.length = a.frameSize) :
    (0 ≤ (dspProcess a frame).spectralCentroidNorm ∧
      (dspProcess a frame).spectralCentroidNorm ≤ 1) ∧
    (0 ≤ (dspProcess a frame).spectralRolloffNorm ∧
      (dspProcess a frame).spectralRolloffNorm ≤ 1) ∧
    (∀ i : Fin 3, 0 ≤ (dspProcess a frame).bandEnergyNormalized i ∧
      (dspProcess a frame).bandEnergyNormalized i ≤ 1) ∧
    (0 ≤ (dspProcess a frame).spectralBalanceLowMid ∧
      (dspProcess a frame).spectralBalanceLowMid ≤ 1) ∧
    (0 ≤ (dspProcess a frame).spectralBalanceMidHi ∧
      (dspProcess a frame).spectralBalanceMidHi ≤ 1) := by
  simp only [dspProcess]
  refine ⟨?_, ?_, fun i => computeBandEnergy_norm_mem _ _ _ i,
    spectralBalanceR_mem _ _, spectralBalanceR_mem _ _⟩ <;>
    split_ifs <;>
    first
      | exact clampR_mem _ 0 1 (by norm_num)
      | norm_num

theorem ema_mem (prev v alpha : ℚ) (hp : 0 ≤ prev ∧ prev ≤ 1) (hv : 0 ≤ v ∧ v ≤ 1) :
    0 ≤ ema prev v alpha ∧ ema prev v alpha ≤ 1 := by
  unfold ema
  split_ifs with h1 h2
  · exact hp
  · exact hv
  · have ha : 0 < alpha := not_le.mp h1
    have hb : alpha < 1 := not_le.mp h2
    constructor
    · nlinarith [mul_nonneg ha.le hv.1, mul_nonneg (by linarith : (0:ℚ) ≤ 1 - alpha) hp.1]
    · nlinarith [mul_le_mul_of_nonneg_left hv.2 ha.le,
        mul_le_mul_of_nonneg_left hp.2 (by linarith : (0:ℚ) ≤ 1 - alpha)]

theorem detectBeat_strength_mem (opts : POptions) (lastBeat : Option ℚ)
    (peakEnergy ts energy avgEnergy : ℚ) :
    0 ≤ (detectBeat opts lastBeat peakEnergy ts energy avgEnergy).2 ∧
      (detectBeat opts lastBeat peakEnergy ts energy avgEnergy).2 ≤ 1 := by
  unfold detectBeat
  split_ifs
  · exact ⟨le_refl 0, by norm_num⟩
  · exact ⟨le_refl 0, by norm_num⟩
  · exact ⟨le_refl 0, by norm_num⟩
  · exact clampQ_mem _ 0 1 (by norm_num)


theorem processP_output_mem (s : PState) (ts : ℚ) (f : PFeatures)
    (hI : 0 ≤ s.intensity ∧ s.intensity ≤ 1) :
    (0 ≤ (processP s ts f).2.energyNorm ∧ (processP s ts f).2.energyNorm ≤ 1) ∧
    (0 ≤ (processP s ts f).2.intensity ∧ (processP s ts f).2.intensity ≤ 1) ∧
    (0 ≤ (processP s ts f).2.beatDensity ∧ (processP s ts f).2.beatDensity ≤ 1) ∧
    (0 ≤ (processP s ts f).2.beatStrength ∧ (processP s ts f).2.beatStrength ≤ 1) ∧
    (0 ≤ (processP s ts f).1.intensity ∧ (processP s ts f).1.intensity ≤ 1) := by
  simp only [processP]
  exact ⟨clampQ_mem _ 0 1 (by norm_num),
    ema_mem _ _ _ hI (clampQ_mem _ 0 1 (by norm_num)),
    clampQ_mem _ 0 1 (by norm_num),
    detectBeat_strength_mem _ _ _ _ _ _,
    ema_mem _ _ _ hI (clampQ_mem _ 0 1 (by norm_num))⟩

theorem runPOutputs_mem (inputs : List (ℚ × PFeatures)) :
    ∀ s : PState, 0 ≤ s.intensity ∧ s.intensity ≤ 1 →
      ∀ o ∈ runPOutputs s inputs,
        (0 ≤ o.energyNorm ∧ o.energyNorm ≤ 1) ∧ (0 ≤ o.intensity ∧ o.intensity ≤ 1) ∧
        (0 ≤ o.beatDensity ∧ o.beatDensity ≤ 1) ∧
        (0 ≤ o.beatStrength ∧ o.beatStrength ≤ 1) := by
  induction inputs with
  | nil =>
    intro s _ o ho
    simp [runPOutputs] at ho
  | cons inp rest ih =>
    intro s hI o ho
    obtain ⟨h1, h2, h3, h4, h5⟩ := processP_output_mem s inp.1 inp.2 hI
    simp only [runPOutputs] at ho
    rcases List.mem_cons.mp ho with rfl | hrest
    · exact ⟨h1, h2, h3, h4⟩
    · exact ih (processP s inp.1 inp.2).1 h5 o hrest

/-- Claim C2: for every valid input frame, every normalized field of the Features
record (centroid norm, rolloff norm, each normalized band energy, both balances) lies in
the unit interval, and for every call of the rhythm analyzer in a run from a fresh
analyzer, every normalized field of the Output record (EnergyNorm, Intensity,
BeatDensity, BeatStrength) lies in the unit interval. -/
theorem normalized_fields_in_unit_interval :
    (∀ (a : DAnalyzer) (frame : List ℝ), frame.length = a.frameSize →
      (0 ≤ (dspProcess a frame).spectralCentroidNorm ∧
        (dspProcess a frame).spectralCentroidNorm ≤ 1) ∧
      (0 ≤ (dspProcess a frame).spectralRolloffNorm ∧
        (dspProcess a frame).spectralRolloffNorm ≤ 1) ∧
      (∀ i : Fin 3, 0 ≤ (dspProcess a frame).bandEnergyNormalized i ∧
        (dspProcess a frame).bandEnergyNormalized i ≤ 1) ∧
      (0 ≤ (dspProcess a frame).spectralBalanceLowMid ∧
        (dspProcess a frame).spectralBalanceLowMid ≤ 1) ∧
      (0 ≤ (dspProcess a frame).spectralBalanceMidHi ∧
        (dspProcess a frame).spectralBalanceMidHi ≤ 1)) ∧
    (∀ (o : POptions) (inputs : List (ℚ × PFeatures)),
      ∀ out ∈ runPOutputs (newPAnalyzer o) inputs,
        (0 ≤ out.energyNorm ∧ out.energyNorm ≤ 1) ∧
        (0 ≤ out.intensity ∧ out.intensity ≤ 1) ∧
        (0 ≤ out.beatDensity ∧ out.beatDensity ≤ 1) ∧
        (0 ≤ out.beatStrength ∧ out.beatStrength ≤ 1)) := by
  constructor
  · intro a frame hlen
    exact dspFeatures_norm_mem a frame hlen
  · intro o inputs out hout
    refine runPOutputs_mem inputs (newPAnalyzer o) ?_ out hout
    have h0 : (newPAnalyzer o).intensity = 0 := rfl
    rw [h0]
    norm_num

/-- Claim C2 witness: the 4-sample silent frame on the small analyzer and the first
output of a fresh rhythm analyzer fed one silent frame. -/
theorem normalized_fields_in_unit_interval_witness :
    ((List.replicate 4 (0:ℝ)).length = dA4.frameSize ∧
      (0 ≤ (dspProcess dA4 (List.replicate 4 0)).spectralCentroidNorm ∧
        (dspProcess dA4 (List.replicate 4 0)).spectralCentroidNorm ≤ 1)) ∧
    ((processP pInit 0 pSilent).2 ∈ runPOutputs pInit [((0:ℚ), pSilent)] ∧
      (0 ≤ (processP pInit 0 pSilent).2.energyNorm ∧
        (processP pInit 0 pSilent).2.energyNorm ≤ 1)) :=
  ⟨⟨rfl, (normalized_fields_in_unit_interval.1 dA4 (List.replicate 4 0) rfl).1⟩,
   ⟨by simp [runPOutputs],
    (normalized_fields_in_unit_interval.2 ⟨0, 0, 0, 0, 0, 0, 0⟩ [((0:ℚ), pSilent)]
      (processP pInit 0 pSilent).2 (by simp [runPOutputs, pInit])).1⟩⟩

/-! ### Silent frames and the rolloff fallback (claims C8, C9) -/

theorem getD_replicate_zero (n j : ℕ) : (List.replicate n (0:ℝ)).getD j 0 = 0 := by
  induction n generalizing j with
  | zero => simp
  | succ n ih =>
    cases j with
    | zero => simp [List.replicate_succ]
    | succ j => simpa [List.replicate_succ] using ih j

theorem applyWindow_silent_getD (n j : ℕ) (w : List ℝ) :
    (applyWindow (List.replicate n 0) w).getD j 0 = 0 := by
  induction n generalizing j w with
  | zero => simp [applyWindow]
  | succ n ih =>
    cases w with
    | nil => simp [applyWindow]
    | cons a w =>
      cases j with
      | zero => simp [applyWindow, List.replicate_succ]
      | succ j => simpa [applyWindow, List.replicate_succ] using ih j w

theorem dftBin_zero (x : List ℝ) (hx : ∀ j, x.getD j 0 = 0) (k : ℕ) : dftBin x k = 0 := by
  unfold dftBin
  refine Finset.sum_eq_zero fun j _ => ?_
  rw [hx j]
  simp

theorem halfMags_zero (n : ℕ) (x : List ℝ) (hx : ∀ j, x.getD j 0 = 0) :
    halfMags n x = List.replicate (n / 2 + 1) 0 := by
  unfold halfMags
  rw [List.eq_replicate]
  constructor
  · simp
  · intro b hb
    simp only [List.mem_map, List.mem_range] at hb
    obtain ⟨k, _, rfl⟩ := hb
    rw [dftBin_zero x hx k]
    simp

theorem sumSq_replicate_zero (m : ℕ) : sumSq (List.replicate m (0:ℝ)) = 0 := by
  unfold sumSq
  simp

theorem rootMeanSquare_silent (n : ℕ) : rootMeanSquare (List.replicate n (0:ℝ)) = 0 := by
  unfold rootMeanSquare
  split_ifs with h
  · rfl
  · rw [sumSq_replicate_zero]
    simp

theorem clampR_zero_lo : clampR 0 0 1 = 0 := by
  unfold clampR
  norm_num

theorem bandEnergyOf_replicate_zero (a : DAnalyzer) (m : ℕ) (band : FrequencyBand) :
    bandEnergyOf a (List.replicate m 0) band = 0 := by
  unfold bandEnergyOf
  refine Finset.sum_eq_zero fun b _ => ?_
  rw [getD_replicate_zero]
  simp

theorem computeRolloff_zero_energy (a : DAnalyzer) (te : ℝ) (mags : List ℝ)
    (h : te ≤ 1e-9) : computeRolloff a te mags = 0 := by
  unfold computeRolloff
  rw [if_pos h]

/-- The value of every claim-relevant field of dsp.Analyzer.Process on the all-zero
frame of the configured frame size. -/
theorem dspSilent_core (a : DAnalyzer) :
    (dspProcess a (List.replicate a.frameSize 0)).rms = 0 ∧
    (dspProcess a (List.replicate a.frameSize 0)).totalEnergy = 0 ∧
    (dspProcess a (List.replicate a.frameSize 0)).spectralCentroidNorm = 0 ∧
    (dspProcess a (List.replicate a.frameSize 0)).spectralRolloff = 0 ∧
    (dspProcess a (List.replicate a.frameSize 0)).spectralRolloffNorm = 0 ∧
    (∀ i : Fin 3, (dspProcess a (List.replicate a.frameSize 0)).bandEnergy i = 0) := by
  have hwin : ∀ j,
      (applyWindow (List.replicate a.frameSize 0) (hannWindow a.frameSize)).getD j 0 = 0 :=
    fun j => applyWindow_silent_getD a.frameSize j (hannWindow a.frameSize)
  have hmags := halfMags_zero a.frameSize _ hwin
  simp only [dspProcess, hmags]
  have hte : sumSq (List.replicate (a.frameSize / 2 + 1) (0:ℝ)) = 0 := sumSq_replicate_zero _
  have hsum : (List.replicate (a.frameSize / 2 + 1) (0:ℝ)).sum = 0 := by simp
  have hrol : computeRolloff a (sumSq (List.replicate (a.frameSize / 2 + 1) 0))
      (List.replicate (a.frameSize / 2 + 1) 0) = 0 :=
    computeRolloff_zero_energy a _ _ (by rw [hte]; norm_num)
  refine ⟨rootMeanSquare_silent _, hte, ?_, hrol, ?_, ?_⟩
  · rw [hsum, if_neg (by norm_num : ¬ (1e-9:ℝ) < 0)]
    split_ifs with h
    · rw [zero_div]
      exact clampR_zero_lo
    · rfl
  · rw [hrol]
    split_ifs with h
    · rw [zero_div]
      exact clampR_zero_lo
    · rfl
  · intro i
    simp only [computeBandEnergy]
    exact bandEnergyOf_replicate_zero a _ (a.bands i)

/-- Claim C8: for a silent frame (every sample equal to 0) of the configured frame
size, the spectral analyzer returns RMS 0, total energy 0, normalized centroid 0,
normalized rolloff 0, and all three band energies 0. -/
theorem silent_frame_features (a : DAnalyzer) :
    (dspProcess a (List.replicate a.frameSize 0)).rms = 0 ∧
    (dspProcess a (List.replicate a.frameSize 0)).totalEnergy = 0 ∧
    (dspProcess a (List.replicate a.frameSize 0)).spectralCentroidNorm = 0 ∧
    (dspProcess a (List.replicate a.frameSize 0)).spectralRolloffNorm = 0 ∧
    (∀ i : Fin 3, (dspProcess a (List.replicate a.frameSize 0)).bandEnergy i = 0) := by
  obtain ⟨h1, h2, h3, _, h5, h6⟩ := dspSilent_core a
  exact ⟨h1, h2, h3, h5, h6⟩

/-- Claim C9 counterexample: the silent 1024-sample frame on the 44.1 kHz analyzer has
total spectral energy 0 (at most 1e-9), yet the rolloff computation returns 0, not the
Nyquist frequency 22050. -/
theorem rolloff_not_nyquist_counterexample :
    (dspProcess dA44 (List.replicate dA44.frameSize 0)).totalEnergy ≤ 1e-9 ∧
    (dspProcess dA44 (List.replicate dA44.frameSize 0)).spectralRolloff = 0 ∧
    dA44.sampleRate / 2 = 22050 ∧
    (dspProcess dA44 (List.replicate dA44.frameSize 0)).spectralRolloff ≠
      dA44.sampleRate / 2 := by
  obtain ⟨-, h2, -, h4, -, -⟩ := dspSilent_core dA44
  have hn : dA44.sampleRate / 2 = 22050 := by norm_num [dA44]
  refine ⟨by rw [h2]; norm_num, h4, hn, ?_⟩
  rw [h4, hn]
  norm_num

/-- Claim C9 as amended: for every frame whose total spectral energy is at most 1e-9,
the spectral rolloff computation returns 0 (the documented degenerate-input fallback),
not the Nyquist frequency; Nyquist is the fall-through of the cumulative walk only when
the total energy exceeds 1e-9. -/
theorem rolloff_fallback_zero (a : DAnalyzer) (te : ℝ) (mags : List ℝ) (h : te ≤ 1e-9) :
    computeRolloff a te mags = 0 := by
  unfold computeRolloff
  rw [if_pos h]

/-- Claim C9 witness: zero total energy on the realistic analyzer yields rolloff 0. -/
theorem rolloff_fallback_zero_witness :
    (0:ℝ) ≤ 1e-9 ∧ computeRolloff dA44 0 [] = 0 :=
  ⟨by norm_num, rolloff_fallback_zero dA44 0 [] (by norm_num)⟩

end Yms
